import Mathlib

/-!
Verification of the pulseq Bloch-simulation helper module
(`virtualscanner/server/simulation/bloch/pulseq_blochsim_methods.py`).

The embedding models floating-point scalars as exact rationals (`ℚ`).
Complex B1 samples are kept in a computable polar encoding (`CSample`):
a magnitude together with an exponent phase written as `c + cpi * π`;
its complex denotation `CSample.toC` is used in theorem statements only.
`numpy` primitives used by the source (`arange`, `interp`, `trapz`)
are given exact rational counterparts.
-/

namespace PulseqBloch

/-- The gyromagnetic-ratio constant `GAMMA_BAR = 42.5775e6` from the source. -/
def GAMMA_BAR : ℚ := 42577500

/-- Model of `np.arange start stop step` over exact rationals: the values
`start + i*step` for `0 ≤ i < ⌈(stop-start)/step⌉` (empty when the count
is nonpositive), matching numpy's length formula. -/
def arangeQ (start stop step : ℚ) : List ℚ :=
  let q : ℚ := (stop - start) / step
  let n : ℕ := if q ≤ 0 then 0 else ⌈q⌉.toNat
  (List.range n).map (fun i => start + i * step)

/-- One step of `np.interp`: piecewise-linear interpolation through the
point list `pts` (pairs `(x, y)` with increasing `x`), with constant
extrapolation outside the covered range. -/
def np_interp (x : ℚ) : List (ℚ × ℚ) → ℚ
  | [] => 0
  | [(_, y0)] => y0
  | (x0, y0) :: (x1, y1) :: rest =>
    if x ≤ x0 then y0
    else if x ≤ x1 then y0 + (y1 - y0) * (x - x0) / (x1 - x0)
    else np_interp x ((x1, y1) :: rest)

/-- Model of `np.trapz y x`: trapezoidal numerical integration of samples `y`
against abscissae `x`. -/
def trapzQ : List ℚ → List ℚ → ℚ
  | y0 :: y1 :: ys, x0 :: x1 :: xs => (x1 - x0) * (y0 + y1) / 2 + trapzQ (y1 :: ys) (x1 :: xs)
  | _, _ => 0

/-- Trapezoid gradient sub-record: the fields of a pulseq `trap` gradient
read by the source (`rise_time`, `flat_time`, `fall_time`, `amplitude`,
and the precomputed `area` field used by `combine_gradient_areas`). -/
structure TrapGrad where
  rise_time : ℚ
  flat_time : ℚ
  fall_time : ℚ
  amplitude : ℚ
  area : ℚ
deriving DecidableEq, Repr

/-- Arbitrary-shape gradient sub-record: explicit time vector `t` and
sampled waveform, as read by the source. -/
structure ArbGrad where
  t : List ℚ
  waveform : List ℚ
deriving DecidableEq, Repr

/-- A per-axis gradient sub-record; the constructor mirrors the source's
`g.type == 'trap'` tag dispatch. -/
inductive Gradient where
  | trap (g : TrapGrad)
  | arb (g : ArbGrad)
deriving DecidableEq, Repr

/-- The gradient-type tag carried in a READOUT payload: the source stores
the string `'trap'` or the arbitrary-gradient type string. -/
inductive GradType where
  | trap
  | arb
deriving DecidableEq, Repr

/-- The type tag of a gradient sub-record (`g.type` in the source). -/
def Gradient.kind : Gradient → GradType
  | .trap _ => .trap
  | .arb _ => .arb

/-- Delay sub-record (`blk.delay.delay`). -/
structure DelayRec where
  delay : ℚ
deriving DecidableEq, Repr

/-- RF sub-record: sample times `t`, raw signal samples, frequency offset
and phase offset, as read by the source. Raw samples are modelled as
real-valued rationals. -/
structure RFRec where
  t : List ℚ
  signal : List ℚ
  freq_offset : ℚ
  phase_offset : ℚ
deriving DecidableEq, Repr

/-- ADC sub-record: dwell time, sample count, delay and phase offset. -/
structure ADCRec where
  dwell : ℚ
  num_samples : ℕ
  delay : ℚ
  phase_offset : ℚ
deriving DecidableEq, Repr

/-- One pulseq block as accessed by the source: the delay/RF/ADC
sub-records (read only under the matching event flag) and the three
optional gradient axes probed with `hasattr`. -/
structure Block where
  delay : DelayRec
  rf : RFRec
  adc : ADCRec
  gx : Option Gradient
  gy : Option Gradient
  gz : Option Gradient
deriving DecidableEq, Repr

/-- One row of the event table: the six event ids
`[delay, rf, gx, gy, gz, adc]`; the source tests each against `0`. -/
structure EventRow where
  e0 : ℕ
  e1 : ℕ
  e2 : ℕ
  e3 : ℕ
  e4 : ℕ
  e5 : ℕ
deriving DecidableEq, Repr

/-- A sequence object: the ordered event table paired with each block, and
the two raster-time system constants. -/
structure Seq where
  blocks : List (EventRow × Block)
  grad_raster_time : ℚ
  rf_raster_time : ℚ

/-- A complex B1 sample in computable polar form: the denoted value is
`mag * exp(i * (phc + phpi * π))`. -/
structure CSample where
  mag : ℚ
  phc : ℚ
  phpi : ℚ
deriving DecidableEq, Repr

/-- Complex denotation of a polar-encoded B1 sample. -/
noncomputable def CSample.toC (s : CSample) : ℂ :=
  (s.mag : ℂ) * Complex.exp (Complex.I * ((s.phc : ℂ) + (s.phpi : ℂ) * (Real.pi : ℂ)))

/-- The present gradient axes of a block, in `gx, gy, gz` order. -/
def Block.axes (blk : Block) : List (Option Gradient) :=
  [blk.gx, blk.gy, blk.gz]

/-- Per-axis piece of `find_precessing_time`: the intrinsic duration of one gradient axis —
`rise+flat+fall` for a trapezoid, sample count times `dt` for an
arbitrary gradient (`len(np.squeeze(g.t))*dt`, with the squeeze of a
length-`n` vector modelled as the vector itself). -/
def axis_time (dt : ℚ) : Gradient → ℚ
  | .trap g => g.rise_time + g.flat_time + g.fall_time
  | .arb g => (g.t.length : ℚ) * dt

/-- Model of `find_precessing_time(blk, dt)`: the maximum intrinsic duration among
the present gradient axes, `0.0` when none is present. -/
def find_precessing_time (blk : Block) (dt : ℚ) : ℚ :=
  let grad_times := (blk.axes.filterMap id).map (axis_time dt)
  match grad_times with
  | [] => 0
  | t :: ts => ts.foldl max t

/-- Model of `combine_gradient_areas(blk)`: per-axis area — the stored `area` field
for a trapezoid, `np.trapz(waveform, t)` for an arbitrary gradient, `0`
for a missing axis — all divided by `GAMMA_BAR`. -/
def combine_gradient_areas (blk : Block) : List ℚ :=
  (blk.axes.map (fun a =>
    match a with
    | some (.trap g) => g.area
    | some (.arb g) => trapzQ g.waveform g.t
    | none => 0)).map (fun x => x / GAMMA_BAR)

/-- The `(time, amplitude)` envelope the source interpolates for one axis:
the four-point trapezoid envelope, or the native samples scaled by
`1/GAMMA_BAR` for an arbitrary gradient. -/
def grad_envelope (g : Gradient) : List (ℚ × ℚ) :=
  match g with
  | .trap t =>
    [(0, 0), (t.rise_time, t.amplitude / GAMMA_BAR),
     (t.rise_time + t.flat_time, t.amplitude / GAMMA_BAR),
     (t.rise_time + t.flat_time + t.fall_time, 0)]
  | .arb a => a.t.zip (a.waveform.map (fun w => w / GAMMA_BAR))

/-- Result record of `combine_gradients`: the 3-row gradient array, the
time grid, the block duration, and the gradient-type tag of the last
present axis (`None` in the source when no axis is present). -/
structure CGResult where
  grad : List (List ℚ)
  timing : List ℚ
  duration : ℚ
  gtype : Option GradType
deriving DecidableEq, Repr

/-- Model of `combine_gradients(blk, dt, timing, delay)`: builds the time grid
(`[0] ++ arange(delay, duration+dt, dt)` when `dt ≠ 0`, else the given
`timing` verbatim, else empty), interpolates each present axis onto it,
fills absent axes with zeros, and reports the last present axis's type. -/
def combine_gradients (blk : Block) (dt : ℚ) (timing : List ℚ) (delay : ℚ) : CGResult :=
  let td : List ℚ × ℚ :=
    if dt ≠ 0 then
      let dur := find_precessing_time blk dt
      (0 :: arangeQ delay (dur + dt) dt, dur)
    else if timing ≠ [] then
      (timing, timing.getLastD 0 - timing.headD 0)
    else ([], 0)
  let grad_timing := td.1
  let grad := blk.axes.map (fun a =>
    match a with
    | some g => grad_timing.map (fun x => np_interp x (grad_envelope g))
    | none => List.replicate grad_timing.length 0)
  let lastg := blk.axes.foldl (fun acc a => match a with | some g => some g | none => acc) none
  { grad := grad, timing := grad_timing, duration := td.2,
    gtype := lastg.map Gradient.kind }

/-- One compiled instruction, pairing the source's command character with
its parameter payload: `d` = delay, `p` = RF pulse, `r` = readout,
`g` = free precession with gradients. -/
inductive Instr where
  | d (t : ℚ)
  | p (b1 : List CSample) (grad : List (List ℚ)) (dt : ℚ)
  | r (dwell : ℚ) (n : ℕ) (delay : ℚ) (grad : List (List ℚ)) (timing : List ℚ)
      (gtype : Option GradType) (phase : ℚ)
  | g (area : List ℚ) (dur : ℚ)
deriving DecidableEq

/-- The instruction-kind tag (the command character of the source). -/
inductive Kind where
  | kd
  | kp
  | kr
  | kg
deriving DecidableEq, Repr

/-- Kind of a compiled instruction. -/
def Instr.kind : Instr → Kind
  | .d _ => .kd
  | .p _ _ _ => .kp
  | .r _ _ _ _ _ _ _ => .kr
  | .g _ _ => .kg

/-- The loop body of `store_pulseq_commands` for one event row and block:
the `if/elif` cascade over flags 0 (delay), 1 (RF), 5 (ADC), 2/3/4
(gradients); a row with none of the flags set emits nothing. -/
def compile_block (blk : Block) (row : EventRow) (dt_rf dt_grad : ℚ) : Option Instr :=
  if row.e0 ≠ 0 then
    some (.d blk.delay.delay)
  else if row.e1 ≠ 0 then
    let rf_time := blk.rf.t.map (fun x => x - dt_rf)
    let b1 := (blk.rf.signal.zip rf_time).map (fun st =>
      { mag := st.1 / GAMMA_BAR, phc := blk.rf.phase_offset,
        phpi := -2 * blk.rf.freq_offset * st.2 })
    let cg := combine_gradients blk 0 rf_time 0
    some (.p b1 cg.grad dt_rf)
  else if row.e5 ≠ 0 then
    let adc := blk.adc
    let cg := combine_gradients blk adc.dwell [] adc.delay
    some (.r adc.dwell adc.num_samples adc.delay cg.grad cg.timing cg.gtype adc.phase_offset)
  else if row.e2 ≠ 0 ∨ row.e3 ≠ 0 ∨ row.e4 ≠ 0 then
    some (.g (combine_gradient_areas blk) (find_precessing_time blk dt_grad))
  else
    none

/-- The compiled sequence info: the instruction stream (command string and
parameter list in lockstep) and the gradient raster time. -/
structure SeqInfo where
  instrs : List Instr
  grad_raster_time : ℚ

/-- Model of `store_pulseq_commands(seq)`: one linear pass over the event table in
table order, emitting the classified instruction of each block. -/
def store_pulseq_commands (seq : Seq) : SeqInfo :=
  { instrs := seq.blocks.filterMap (fun eb =>
      compile_block eb.2 eb.1 seq.rf_raster_time seq.grad_raster_time),
    grad_raster_time := seq.grad_raster_time }

/-- The spin-group capability set dispatched to by the interpreter, over
an abstract spin-state type `σ` (the spin-group classes are external
collaborators of this module). -/
structure SGOps (σ : Type) where
  delay : σ → ℚ → σ
  apply_rf : σ → List CSample → List (List ℚ) → ℚ → σ
  readout_trapz : σ → ℚ → ℕ → ℚ → List (List ℚ) → List ℚ → ℚ → σ
  readout : σ → ℚ → ℕ → ℚ → List (List ℚ) → List ℚ → ℚ → σ
  fpwg : σ → List ℚ → ℚ → σ
  get_m : σ → ℚ × ℚ × ℚ

/-- Dispatch of one instruction in `apply_pulseq_commands`: each command
character calls the matching spin-group capability; a READOUT goes to
`readout_trapz` exactly when its stored gradient type is `'trap'`, and to
`readout` otherwise. -/
def apply_instr {σ : Type} (ops : SGOps σ) (isc : σ) : Instr → σ
  | .d t => ops.delay isc t
  | .p b1 grad dt => ops.apply_rf isc b1 grad dt
  | .r dwell n delay grad timing gtype phase =>
    if gtype = some GradType.trap then
      ops.readout_trapz isc dwell n delay grad timing phase
    else
      ops.readout isc dwell n delay grad timing phase
  | .g area dur => ops.fpwg isc area dur

/-- Model of `apply_pulseq_commands(isc, seq_info, store_m)`: sequentially applies
each instruction to the spin state, and records one trace column per
instruction — the magnetization read after the instruction when
`store_m`, a zero column otherwise (the source preallocates
`np.zeros((3, len(cmds)))` and only assigns when `store_m`). Returns the
final state together with the trace columns. -/
def apply_pulseq_commands {σ : Type} (ops : SGOps σ) (isc : σ) (instrs : List Instr)
    (store_m : Bool) : σ × List (ℚ × ℚ × ℚ) :=
  match instrs with
  | [] => (isc, [])
  | i :: rest =>
    let s1 := apply_instr ops isc i
    let out := apply_pulseq_commands ops s1 rest store_m
    (out.1, (if store_m then ops.get_m s1 else (0, 0, 0)) :: out.2)

/-- Phantom collaborator interface: the per-index lookups used by
`sim_single_spingroup`. -/
structure Phantom (ι Loc Params : Type) where
  get_location : ι → Loc
  get_params : ι → Params
  get_diffusion_coeff : ι → ℚ
  get_t2star : ι → ℚ

/-- Spin-group environment: the four variant constructors of the external
`spingroup` modules, the capability set, and the signal extractor. -/
structure SGEnv (σ Loc Params Sig : Type) where
  ops : SGOps σ
  mkDefault : Loc → Params → ℚ → σ
  mkSolver : Loc → Params → ℚ → σ
  mkDiffusion : Loc → Params → ℚ → ℚ → ℚ → σ
  mkT2star : Loc → Params → ℚ → ℚ → ℕ → σ
  signal : σ → Sig

/-- Output of `sim_single_spingroup`: the accumulated signal, the terminal
spin-group object, or Python's implicit `None` for any other
`output_type`. -/
inductive DriverOut (σ Sig : Type) where
  | signal (s : Sig)
  | spingroup (g : σ)
  | noneOut

/-- Model of `sim_single_spingroup(...)`: looks up the location, constructs the
requested spin-state variant, runs the interpreter without trace capture,
and extracts the requested output. An `sg_type` outside the four known
variants leaves `isc` unbound in the source, so the call raises
`UnboundLocalError` when `isc` is referenced — before any instruction is
applied; this is modelled as an `Except.error`. -/
def sim_single_spingroup {σ ι Loc Params Sig : Type}
    (env : SGEnv σ Loc Params Sig) (loc_ind : ι) (freq_offset : ℚ)
    (phantom : Phantom ι Loc Params) (seq_info : SeqInfo) (sg_type : String)
    (b : ℚ) (num_spins : ℕ) (output_type : String) :
    Except String (DriverOut σ Sig) :=
  let sgloc := phantom.get_location loc_ind
  let isc0 : Except String σ :=
    if sg_type = "Default" then
      .ok (env.mkDefault sgloc (phantom.get_params loc_ind) freq_offset)
    else if sg_type = "Solver" then
      .ok (env.mkSolver sgloc (phantom.get_params loc_ind) freq_offset)
    else if sg_type = "Diffusion" then
      .ok (env.mkDiffusion sgloc (phantom.get_params loc_ind) freq_offset
        (phantom.get_diffusion_coeff loc_ind) b)
    else if sg_type = "T2Star" then
      .ok (env.mkT2star sgloc (phantom.get_params loc_ind) freq_offset
        (phantom.get_t2star loc_ind) num_spins)
    else
      .error "UnboundLocalError: isc referenced before assignment"
  match isc0 with
  | .error e => .error e
  | .ok isc =>
    let isc2 := (apply_pulseq_commands env.ops isc seq_info.instrs false).1
    if output_type = "signal" then .ok (.signal (env.signal isc2))
    else if output_type = "spingroup" then .ok (.spingroup isc2)
    else .ok .noneOut

/-- Spec-side predicate: the event row activates at least one of the
delay, RF, ADC, or gradient flags (positions 0, 1, 5, 2/3/4). -/
def rowActive (row : EventRow) : Bool :=
  (row.e0 != 0) || (row.e1 != 0) || (row.e5 != 0) ||
  (row.e2 != 0) || (row.e3 != 0) || (row.e4 != 0)

/-- Spec-side classifier: the instruction kind of the first set flag under
the fixed priority delay → RF → ADC → any-gradient, `none` when no
relevant flag is set. -/
def firstMatchKind (row : EventRow) : Option Kind :=
  if row.e0 ≠ 0 then some .kd
  else if row.e1 ≠ 0 then some .kp
  else if row.e5 ≠ 0 then some .kr
  else if row.e2 ≠ 0 ∨ row.e3 ≠ 0 ∨ row.e4 ≠ 0 then some .kg
  else none

/-- The b1 sample list of an RF instruction (empty for other kinds). -/
def Instr.rfB1 : Instr → List CSample
  | .p b1 _ _ => b1
  | _ => []

/-- The gradient waveform of an RF instruction (empty for other kinds). -/
def Instr.rfGrad : Instr → List (List ℚ)
  | .p _ grad _ => grad
  | _ => []

/-- The raster step of an RF instruction (`0` for other kinds). -/
def Instr.rfDt : Instr → ℚ
  | .p _ _ dt => dt
  | _ => 0

/-- A block with no gradient axis and inert sub-records, used as a
concrete test input. -/
def blk0 : Block :=
  { delay := ⟨1⟩, rf := ⟨[], [], 0, 0⟩, adc := ⟨0, 0, 0, 0⟩,
    gx := none, gy := none, gz := none }

/-- A one-block sequence whose single event row sets no flag at all. -/
def seq0 : Seq :=
  { blocks := [(⟨0, 0, 0, 0, 0, 0⟩, blk0)], grad_raster_time := 1, rf_raster_time := 1 }

/-- A trapezoid test gradient: rise 1, flat 1, fall 1, amplitude 1, with a
stored `area` field (5) that disagrees with the closed form
`1*(1 + (1+1)/2) = 2`. -/
def trapBad : TrapGrad := ⟨1, 1, 1, 1, 5⟩

/-- A block carrying only the inconsistent trapezoid on the x axis. -/
def blkBad : Block :=
  { delay := ⟨0⟩, rf := ⟨[], [], 0, 0⟩, adc := ⟨0, 0, 0, 0⟩,
    gx := some (.trap trapBad), gy := none, gz := none }

/-- A trapezoid test gradient whose stored `area` (60) agrees with the
closed form `10*(3 + (2+4)/2) = 60`. -/
def trapGood : TrapGrad := ⟨2, 3, 4, 10, 60⟩

/-- A block carrying only the consistent trapezoid on the x axis. -/
def blkGood : Block :=
  { delay := ⟨0⟩, rf := ⟨[], [], 0, 0⟩, adc := ⟨0, 0, 0, 0⟩,
    gx := some (.trap trapGood), gy := none, gz := none }

/-- A block with an RF sub-record holding two samples, used as a concrete
RF-compilation input. -/
def blkRF : Block :=
  { delay := ⟨0⟩, rf := ⟨[1, 2], [3, 4], 5, 7⟩, adc := ⟨0, 0, 0, 0⟩,
    gx := none, gy := none, gz := none }

/-- Spin-group capability set over the trivial state, used as a concrete
interpreter input. -/
def unitOps : SGOps Unit :=
  { delay := fun _ _ => (), apply_rf := fun _ _ _ _ => (),
    readout_trapz := fun _ _ _ _ _ _ _ => (),
    readout := fun _ _ _ _ _ _ _ => (),
    fpwg := fun _ _ _ => (), get_m := fun _ => (0, 0, 0) }

/-- Spin-group environment over trivial types, used as a concrete driver
input. -/
def unitEnv : SGEnv Unit Unit Unit Unit :=
  { ops := unitOps, mkDefault := fun _ _ _ => (), mkSolver := fun _ _ _ => (),
    mkDiffusion := fun _ _ _ _ _ => (), mkT2star := fun _ _ _ _ _ => (),
    signal := fun _ => () }

/-- Phantom over trivial types, used as a concrete driver input. -/
def unitPhantom : Phantom Unit Unit Unit :=
  { get_location := fun _ => (), get_params := fun _ => (),
    get_diffusion_coeff := fun _ => 0, get_t2star := fun _ => 0 }

/-- An empty compiled sequence, used as a concrete driver input. -/
def emptyInfo : SeqInfo := { instrs := [], grad_raster_time := 1 }

lemma compile_block_isSome_eq (blk : Block) (row : EventRow) (dtr dtg : ℚ) :
    (compile_block blk row dtr dtg).isSome = rowActive row := by
  unfold compile_block rowActive
  split_ifs with h1 h2 h3 h4 <;> (simp_all [bne_iff_ne]; try tauto)

lemma filterMap_filter_spec {α β : Type} (f : α → Option β) (p : α → Bool)
    (h : ∀ x, (f x).isSome = p x) (l : List α) :
    l.filterMap f = (l.filter p).filterMap f
      ∧ (l.filterMap f).length = (l.filter p).length := by
  induction l with
  | nil => simp
  | cons a t ih =>
    cases hpa : p a with
    | false =>
      have hfa : f a = none := by
        have hs := h a
        rw [hpa] at hs
        exact Option.not_isSome_iff_eq_none.mp (by simp [hs])
      have e1 : List.filterMap f (a :: t) = List.filterMap f t := by
        rw [List.filterMap_cons, hfa]
      have e2 : List.filter p (a :: t) = List.filter p t := by
        rw [List.filter_cons, hpa]
        rfl
      rw [e1, e2]
      exact ih
    | true =>
      obtain ⟨b, hb⟩ := Option.isSome_iff_exists.mp (by rw [h a, hpa])
      have e1 : List.filterMap f (a :: t) = b :: List.filterMap f t := by
        rw [List.filterMap_cons, hb]
      have e2 : List.filter p (a :: t) = a :: List.filter p t := by
        rw [List.filter_cons, hpa]
        rfl
      rw [e1, e2, List.filterMap_cons, hb]
      exact ⟨by rw [ih.1], by simp [List.length_cons, ih.2]⟩

/-- C2: for every block and event row, the compiler emits exactly the one
instruction whose kind is the first set flag under the fixed priority
delay → RF → ADC → any-gradient (flags 0, 1, 5, 2/3/4); a row with
several flags set is classified into the priority-first category (and a
row with none emits nothing). -/
theorem classification_first_match (blk : Block) (row : EventRow) (dtr dtg : ℚ) :
    (compile_block blk row dtr dtg).map Instr.kind = firstMatchKind row := by
  unfold compile_block firstMatchKind
  split_ifs <;> rfl

/-- C1 (counterexample): a one-block sequence whose event row activates
none of delay, RF, ADC, or any gradient compiles to an instruction stream
strictly shorter than the event table, refuting the stream-length
invariant as stated. -/
theorem stream_length_counterexample :
    (store_pulseq_commands seq0).instrs.length ≠ seq0.blocks.length := by
  decide

/-- C1 (amended): the instruction stream is the in-order compilation of
exactly those event-table blocks having at least one of the delay, RF,
ADC, or gradient flags set, and its length equals the number of such
blocks; a block with no relevant flag emits nothing. -/
theorem stream_length_active_blocks (seq : Seq) :
    (store_pulseq_commands seq).instrs
      = ((seq.blocks.filter (fun eb => rowActive eb.1)).filterMap
          (fun eb => compile_block eb.2 eb.1 seq.rf_raster_time seq.grad_raster_time))
    ∧ (store_pulseq_commands seq).instrs.length
      = (seq.blocks.filter (fun eb => rowActive eb.1)).length := by
  have h := filterMap_filter_spec
    (fun eb : EventRow × Block => compile_block eb.2 eb.1 seq.rf_raster_time seq.grad_raster_time)
    (fun eb => rowActive eb.1)
    (fun eb => compile_block_isSome_eq eb.2 eb.1 seq.rf_raster_time seq.grad_raster_time)
    seq.blocks
  exact ⟨h.1, h.2⟩

lemma foldl_max_mem (t : ℚ) (ts : List ℚ) : ts.foldl max t ∈ t :: ts := by
  induction ts generalizing t with
  | nil => simp
  | cons a ts ih =>
    rw [List.foldl_cons]
    rcases List.mem_cons.mp (ih (max t a)) with h1 | h1
    · rcases max_choice t a with he | he
      · rw [h1, he]
        exact List.mem_cons_self _ _
      · rw [h1, he]
        exact List.mem_cons_of_mem _ (List.mem_cons_self _ _)
    · exact List.mem_cons_of_mem _ (List.mem_cons_of_mem _ h1)

lemma le_foldl_max (t : ℚ) (ts : List ℚ) : ∀ x ∈ t :: ts, x ≤ ts.foldl max t := by
  induction ts generalizing t with
  | nil =>
    intro x hx
    rw [List.mem_singleton] at hx
    simp [hx]
  | cons a ts ih =>
    intro x hx
    rw [List.foldl_cons]
    have hbase : max t a ≤ ts.foldl max (max t a) :=
      ih (max t a) (max t a) (List.mem_cons_self _ _)
    rcases List.mem_cons.mp hx with h1 | h1
    · rw [h1]
      exact le_trans (le_max_left t a) hbase
    · rcases List.mem_cons.mp h1 with h2 | h2
      · rw [h2]
        exact le_trans (le_max_right t a) hbase
      · exact ih (max t a) x (List.mem_cons_of_mem _ h2)

lemma find_precessing_time_spec (blk : Block) (dt : ℚ) :
    ((blk.axes.filterMap id) = [] → find_precessing_time blk dt = 0)
    ∧ (∀ g ∈ blk.axes.filterMap id, axis_time dt g ≤ find_precessing_time blk dt)
    ∧ ((blk.axes.filterMap id) ≠ [] →
        find_precessing_time blk dt ∈ (blk.axes.filterMap id).map (axis_time dt)) := by
  cases hl : blk.axes.filterMap id with
  | nil =>
    refine ⟨fun _ => ?_, fun g hg => ?_, fun hne => absurd rfl hne⟩
    · simp [find_precessing_time, hl]
    · simp [hl] at hg
  | cons g gs =>
    have hf : find_precessing_time blk dt = (gs.map (axis_time dt)).foldl max (axis_time dt g) := by
      simp [find_precessing_time, hl]
    refine ⟨fun h => ?_, fun g2 hg2 => ?_, fun _ => ?_⟩
    · exact absurd h (by simp)
    · rw [hf]
      apply le_foldl_max
      rcases List.mem_cons.mp hg2 with h | h
      · rw [h]
        exact List.mem_cons_self _ _
      · exact List.mem_cons_of_mem _ (List.mem_map_of_mem _ h)
    · rw [hf, List.map_cons]
      exact foldl_max_mem _ _

lemma combine_gradients_dt_path (blk : Block) (dt : ℚ) (timing : List ℚ) (delay : ℚ)
    (hdt : dt ≠ 0) :
    (combine_gradients blk dt timing delay).timing
      = 0 :: arangeQ delay (find_precessing_time blk dt + dt) dt
    ∧ (combine_gradients blk dt timing delay).duration = find_precessing_time blk dt := by
  unfold combine_gradients
  simp [hdt]

/-- C3: with a nonzero raster step `dt` and a delay, the resampler's time
grid is `[0] ++ arange(delay, duration+dt, dt)` where `duration` is the
maximum over the three axes of each present axis's intrinsic duration
(`rise+flat+fall` for a trapezoid, sample count times `dt` for an
arbitrary shape, `0.0` when no axis is present); with an explicit timing
array instead, the grid is that array verbatim and the duration is its
last element minus its first. -/
theorem resampler_grid_and_duration :
    (∀ (blk : Block) (dt : ℚ) (timing : List ℚ) (delay : ℚ), dt ≠ 0 →
      (combine_gradients blk dt timing delay).timing
        = 0 :: arangeQ delay (find_precessing_time blk dt + dt) dt
      ∧ (combine_gradients blk dt timing delay).duration = find_precessing_time blk dt
      ∧ ((blk.axes.filterMap id) = [] → find_precessing_time blk dt = 0)
      ∧ (∀ g ∈ blk.axes.filterMap id, axis_time dt g ≤ find_precessing_time blk dt)
      ∧ ((blk.axes.filterMap id) ≠ [] →
          find_precessing_time blk dt ∈ (blk.axes.filterMap id).map (axis_time dt)))
    ∧ (∀ (blk : Block) (timing : List ℚ) (delay : ℚ) (h : timing ≠ []),
      (combine_gradients blk 0 timing delay).timing = timing
      ∧ (combine_gradients blk 0 timing delay).duration
        = timing.getLast h - timing.head h) := by
  constructor
  · intro blk dt timing delay hdt
    obtain ⟨ht, hd⟩ := combine_gradients_dt_path blk dt timing delay hdt
    obtain ⟨h1, h2, h3⟩ := find_precessing_time_spec blk dt
    exact ⟨ht, hd, h1, h2, h3⟩
  · intro blk timing delay h
    constructor
    · unfold combine_gradients
      simp [h]
    · unfold combine_gradients
      simp [h, List.getLastD_eq_getLast?, List.getLast?_eq_getLast _ h,
        List.headD_eq_head?, List.head?_eq_head h]

/-- Witness for C3 at concrete inputs: a trapezoid-on-x block with `dt = 1`
and a gradient-free block with the explicit grid `[5, 9]`. -/
theorem resampler_grid_witness :
    (1 : ℚ) ≠ 0
    ∧ (combine_gradients blkGood 1 [] 0).timing
        = 0 :: arangeQ 0 (find_precessing_time blkGood 1 + 1) 1
    ∧ (combine_gradients blkGood 1 [] 0).duration = find_precessing_time blkGood 1
    ∧ ([(5 : ℚ), 9] ≠ [])
    ∧ (combine_gradients blk0 0 [5, 9] 0).timing = [5, 9]
    ∧ (combine_gradients blk0 0 [5, 9] 0).duration
        = ([(5 : ℚ), 9]).getLast (by decide) - ([(5 : ℚ), 9]).head (by decide) :=
  ⟨by decide,
   (resampler_grid_and_duration.1 blkGood 1 [] 0 (by decide)).1,
   (resampler_grid_and_duration.1 blkGood 1 [] 0 (by decide)).2.1,
   by decide,
   (resampler_grid_and_duration.2 blk0 [5, 9] 0 (by decide)).1,
   (resampler_grid_and_duration.2 blk0 [5, 9] 0 (by decide)).2⟩

/-- C4 (counterexample): `combine_gradient_areas` returns the record's
stored `area` field divided by `GAMMA_BAR`, not the trapezoid closed
form; on a trapezoid with rise 1, flat 1, fall 1, amplitude 1, and a
stored area of 5, the result differs from
`A*(f + (r+g)/2) / GAMMA_BAR = 2 / GAMMA_BAR`. -/
theorem area_closed_form_counterexample :
    ¬ (combine_gradient_areas blkBad
        = [trapBad.amplitude * (trapBad.flat_time + (trapBad.rise_time + trapBad.fall_time) / 2)
            / GAMMA_BAR, 0, 0]) := by
  simp [combine_gradient_areas, Block.axes, blkBad, trapBad, GAMMA_BAR]
  norm_num

/-- C4 (amended): for a trapezoid axis, the area variant returns the
record's stored `area` field divided by `GAMMA_BAR` — which equals the
closed form `A*(f + (r+g)/2) / GAMMA_BAR` exactly when the stored area
field matches that closed form — and the computed block duration equals
`rise + flat + fall`. -/
theorem area_and_duration_amended (blk : Block) (t : TrapGrad) (dt : ℚ) :
    (blk.gx = some (.trap t) →
      (combine_gradient_areas blk)[0]? = some (t.area / GAMMA_BAR))
    ∧ (blk.gy = some (.trap t) →
      (combine_gradient_areas blk)[1]? = some (t.area / GAMMA_BAR))
    ∧ (blk.gz = some (.trap t) →
      (combine_gradient_areas blk)[2]? = some (t.area / GAMMA_BAR))
    ∧ (blk.gx = some (.trap t) → blk.gy = none → blk.gz = none →
      find_precessing_time blk dt = t.rise_time + t.flat_time + t.fall_time
      ∧ (t.area = t.amplitude * (t.flat_time + (t.rise_time + t.fall_time) / 2) →
        combine_gradient_areas blk
          = [t.amplitude * (t.flat_time + (t.rise_time + t.fall_time) / 2) / GAMMA_BAR,
             0, 0])) := by
  refine ⟨fun hx => ?_, fun hy => ?_, fun hz => ?_, fun hx hy hz => ⟨?_, fun harea => ?_⟩⟩
  · simp [combine_gradient_areas, Block.axes, hx]
  · simp [combine_gradient_areas, Block.axes, hy]
  · simp [combine_gradient_areas, Block.axes, hz]
  · simp [find_precessing_time, Block.axes, hx, hy, hz, axis_time]
  · simp [combine_gradient_areas, Block.axes, hx, hy, hz, harea]

/-- Witness for C4 (amended) at a block whose only gradient is a
trapezoid on x with a stored area agreeing with the closed form. -/
theorem area_and_duration_witness :
    blkGood.gx = some (Gradient.trap trapGood)
    ∧ (combine_gradient_areas blkGood)[0]? = some (trapGood.area / GAMMA_BAR)
    ∧ find_precessing_time blkGood 1
        = trapGood.rise_time + trapGood.flat_time + trapGood.fall_time
    ∧ combine_gradient_areas blkGood
        = [trapGood.amplitude
            * (trapGood.flat_time + (trapGood.rise_time + trapGood.fall_time) / 2) / GAMMA_BAR,
           0, 0] :=
  ⟨rfl,
   (area_and_duration_amended blkGood trapGood 1).1 rfl,
   ((area_and_duration_amended blkGood trapGood 1).2.2.2 rfl rfl rfl).1,
   ((area_and_duration_amended blkGood trapGood 1).2.2.2 rfl rfl rfl).2 (by norm_num [trapGood])⟩

/-- C5 (counterexample): supplying both a nonzero `dt` and a non-empty
`timing`, or neither, is not rejected: the both-supplied call returns the
same ordinary result as the `dt`-only call (the timing argument is
silently ignored), and the neither-supplied call returns an empty-grid
result instead of failing. -/
theorem resampler_no_rejection_counterexample :
    combine_gradients blk0 1 [7] 0 = combine_gradients blk0 1 [] 0
    ∧ combine_gradients blk0 0 [] 0
        = { grad := [[], [], []], timing := [], duration := 0, gtype := none } := by
  constructor
  · unfold combine_gradients
    norm_num
  · unfold combine_gradients
    simp [blk0, Block.axes]

/-- C5 (amended): the resampler performs no argument validation: whenever
`dt ≠ 0` the `dt` path is taken and the `timing` argument is ignored, and
when neither `dt` nor `timing` is supplied the call returns an empty time
grid, zero duration, and three empty gradient rows — it never rejects. -/
theorem resampler_no_rejection (blk : Block) (dt : ℚ) (timing : List ℚ) (delay : ℚ) :
    (dt ≠ 0 → combine_gradients blk dt timing delay = combine_gradients blk dt [] delay)
    ∧ ((combine_gradients blk 0 [] delay).timing = []
      ∧ (combine_gradients blk 0 [] delay).duration = 0
      ∧ (combine_gradients blk 0 [] delay).grad = [[], [], []]) := by
  refine ⟨fun hdt => ?_, ?_, ?_, ?_⟩
  · unfold combine_gradients
    simp [hdt]
  · unfold combine_gradients
    simp
  · unfold combine_gradients
    simp
  · unfold combine_gradients
    cases hgx : blk.gx <;> cases hgy : blk.gy <;> cases hgz : blk.gz <;>
      simp [Block.axes, hgx, hgy, hgz]

/-- Witness for C5 (amended): with `dt = 1 ≠ 0` the supplied timing is
ignored. -/
theorem resampler_no_rejection_witness :
    (1 : ℚ) ≠ 0
    ∧ combine_gradients blk0 1 [3] 2 = combine_gradients blk0 1 [] 2 :=
  ⟨by decide, (resampler_no_rejection blk0 1 [3] 2).1 (by decide)⟩

/-- C9: a block with no gradient sub-record on any axis yields a 3-row
gradient array whose rows are all zero with the grid's length, and a zero
area vector. -/
theorem zero_gradient_block (blk : Block) (dt : ℚ) (timing : List ℚ) (delay : ℚ)
    (hx : blk.gx = none) (hy : blk.gy = none) (hz : blk.gz = none) :
    (combine_gradients blk dt timing delay).grad
      = [List.replicate (combine_gradients blk dt timing delay).timing.length 0,
         List.replicate (combine_gradients blk dt timing delay).timing.length 0,
         List.replicate (combine_gradients blk dt timing delay).timing.length 0]
    ∧ combine_gradient_areas blk = [0, 0, 0] := by
  constructor
  · simp [combine_gradients, Block.axes, hx, hy, hz]
  · simp [combine_gradient_areas, Block.axes, hx, hy, hz]

/-- Witness for C9 at the gradient-free block with `dt = 1`. -/
theorem zero_gradient_witness :
    blk0.gx = none
    ∧ (combine_gradients blk0 1 [] 0).grad
        = [List.replicate (combine_gradients blk0 1 [] 0).timing.length 0,
           List.replicate (combine_gradients blk0 1 [] 0).timing.length 0,
           List.replicate (combine_gradients blk0 1 [] 0).timing.length 0]
    ∧ combine_gradient_areas blk0 = [0, 0, 0] :=
  ⟨rfl, (zero_gradient_block blk0 1 [] 0 rfl rfl rfl).1,
   (zero_gradient_block blk0 1 [] 0 rfl rfl rfl).2⟩

/-- C6: for an RF block (delay flag clear, RF flag set), the compiler
emits an RF instruction whose b1 waveform denotes
`(s / GAMMA_BAR) * exp(i*(dph - 2*pi*df*t))` elementwise with
`t = tau - dt_rf` (the RF sample times shifted back one raster step),
whose gradient waveform is the resampler output on that shifted time
vector, and whose raster step is `dt_rf`. -/
theorem rf_payload (blk : Block) (row : EventRow) (dtr dtg : ℚ)
    (h0 : row.e0 = 0) (h1 : row.e1 ≠ 0) :
    (compile_block blk row dtr dtg).map Instr.kind = some Kind.kp
    ∧ (compile_block blk row dtr dtg).map (fun i => i.rfB1.map CSample.toC)
        = some ((blk.rf.signal.zip blk.rf.t).map (fun st =>
            ((st.1 : ℂ) / (GAMMA_BAR : ℂ))
              * Complex.exp (Complex.I * ((blk.rf.phase_offset : ℂ)
                  - 2 * (Real.pi : ℂ) * (blk.rf.freq_offset : ℂ) * ((st.2 : ℂ) - (dtr : ℂ))))))
    ∧ (compile_block blk row dtr dtg).map Instr.rfGrad
        = some ((combine_gradients blk 0 (blk.rf.t.map (fun x => x - dtr)) 0).grad)
    ∧ (compile_block blk row dtr dtg).map Instr.rfDt = some dtr := by
  have hc : compile_block blk row dtr dtg
      = some (.p ((blk.rf.signal.zip (blk.rf.t.map (fun x => x - dtr))).map (fun st =>
          { mag := st.1 / GAMMA_BAR, phc := blk.rf.phase_offset,
            phpi := -2 * blk.rf.freq_offset * st.2 }))
          ((combine_gradients blk 0 (blk.rf.t.map (fun x => x - dtr)) 0).grad) dtr) := by
    unfold compile_block
    rw [if_neg (by simp [h0]), if_pos h1]
  rw [hc]
  refine ⟨rfl, ?_, rfl, rfl⟩
  simp only [Option.map_some', Instr.rfB1, Option.some.injEq]
  rw [List.zip_map_right, List.map_map, List.map_map]
  refine List.map_congr_left ?_
  intro p _
  obtain ⟨s, tau⟩ := p
  simp only [Function.comp, Prod.map, id, CSample.toC]
  congr 1
  · push_cast
    ring
  · congr 1
    push_cast
    ring

/-- Witness for C6 at a block with a two-sample RF record and the event
row `(0, 1, 0, 0, 0, 0)`. -/
theorem rf_payload_witness :
    (⟨0, 1, 0, 0, 0, 0⟩ : EventRow).e0 = 0
    ∧ (⟨0, 1, 0, 0, 0, 0⟩ : EventRow).e1 ≠ 0
    ∧ (compile_block blkRF ⟨0, 1, 0, 0, 0, 0⟩ 1 1).map Instr.kind = some Kind.kp
    ∧ (compile_block blkRF ⟨0, 1, 0, 0, 0, 0⟩ 1 1).map Instr.rfGrad
        = some ((combine_gradients blkRF 0 (blkRF.rf.t.map (fun x => x - 1)) 0).grad)
    ∧ (compile_block blkRF ⟨0, 1, 0, 0, 0, 0⟩ 1 1).map Instr.rfDt = some 1 :=
  ⟨rfl, by decide,
   (rf_payload blkRF ⟨0, 1, 0, 0, 0, 0⟩ 1 1 rfl (by decide)).1,
   (rf_payload blkRF ⟨0, 1, 0, 0, 0, 0⟩ 1 1 rfl (by decide)).2.2.1,
   (rf_payload blkRF ⟨0, 1, 0, 0, 0, 0⟩ 1 1 rfl (by decide)).2.2.2⟩

/-- C7: the resampler's reported waveform kind is the gradient type of the
last axis in x, y, z order that carries a gradient (`none` when no axis
does), and the interpreter dispatches a READOUT instruction to the
trapezoid readout path exactly when that kind is `'trap'`, and to the
arbitrary readout path in every other case. -/
theorem gtype_last_axis_and_dispatch :
    (∀ (blk : Block) (dt : ℚ) (timing : List ℚ) (delay : ℚ),
      (combine_gradients blk dt timing delay).gtype
        = ((blk.axes.filterMap id).getLast?).map Gradient.kind)
    ∧ (∀ (σ : Type) (ops : SGOps σ) (isc : σ) (dwell : ℚ) (n : ℕ) (delay : ℚ)
        (grad : List (List ℚ)) (timing : List ℚ) (gtype : Option GradType) (phase : ℚ),
      (gtype = some GradType.trap →
        apply_instr ops isc (.r dwell n delay grad timing gtype phase)
          = ops.readout_trapz isc dwell n delay grad timing phase)
      ∧ (gtype ≠ some GradType.trap →
        apply_instr ops isc (.r dwell n delay grad timing gtype phase)
          = ops.readout isc dwell n delay grad timing phase)) := by
  constructor
  · intro blk dt timing delay
    cases hgx : blk.gx <;> cases hgy : blk.gy <;> cases hgz : blk.gz <;>
      simp [combine_gradients, Block.axes, hgx, hgy, hgz]
  · intro σ ops isc dwell n delay grad timing gtype phase
    exact ⟨fun h => by simp [apply_instr, h], fun h => by simp [apply_instr, h]⟩

/-- Witness for C7: concrete gradient-type reporting, and both dispatch
branches on trivial spin-group operations. -/
theorem gtype_dispatch_witness :
    (combine_gradients blkGood 1 [] 0).gtype
      = ((blkGood.axes.filterMap id).getLast?).map Gradient.kind
    ∧ apply_instr unitOps () (.r 1 2 0 [] [] (some GradType.trap) 0)
        = unitOps.readout_trapz () 1 2 0 [] [] 0
    ∧ apply_instr unitOps () (.r 1 2 0 [] [] none 0)
        = unitOps.readout () 1 2 0 [] [] 0 :=
  ⟨gtype_last_axis_and_dispatch.1 blkGood 1 [] 0,
   (gtype_last_axis_and_dispatch.2 Unit unitOps () 1 2 0 [] [] (some GradType.trap) 0).1 rfl,
   (gtype_last_axis_and_dispatch.2 Unit unitOps () 1 2 0 [] [] none 0).2 (by decide)⟩

/-- C8: calling the per-location driver with a variant name outside
`{Default, Solver, Diffusion, T2Star}` fails (the source raises
`UnboundLocalError` on the unassigned `isc`) before any instruction is
applied to a spin-state object: the outcome is an error independent of
the instruction stream. -/
theorem unknown_variant_rejected
    (σ ι Loc Params Sig : Type) (env : SGEnv σ Loc Params Sig) (loc_ind : ι)
    (freq_offset : ℚ) (phantom : Phantom ι Loc Params) (seq_info : SeqInfo)
    (sg_type : String) (b : ℚ) (num_spins : ℕ) (output_type : String)
    (h1 : sg_type ≠ "Default") (h2 : sg_type ≠ "Solver")
    (h3 : sg_type ≠ "Diffusion") (h4 : sg_type ≠ "T2Star") :
    sim_single_spingroup env loc_ind freq_offset phantom seq_info sg_type b num_spins output_type
      = Except.error "UnboundLocalError: isc referenced before assignment"
    ∧ ∀ info2 : SeqInfo,
      sim_single_spingroup env loc_ind freq_offset phantom seq_info sg_type b num_spins
          output_type
        = sim_single_spingroup env loc_ind freq_offset phantom info2 sg_type b num_spins
            output_type := by
  constructor
  · simp [sim_single_spingroup, h1, h2, h3, h4]
  · intro info2
    simp [sim_single_spingroup, h1, h2, h3, h4]

/-- Witness for C8 with the unknown variant name `Bogus` over trivial
collaborator instances. -/
theorem unknown_variant_witness :
    ("Bogus" : String) ≠ "Default"
    ∧ ("Bogus" : String) ≠ "Solver"
    ∧ ("Bogus" : String) ≠ "Diffusion"
    ∧ ("Bogus" : String) ≠ "T2Star"
    ∧ sim_single_spingroup unitEnv () 0 unitPhantom emptyInfo "Bogus" 0 25 "signal"
        = Except.error "UnboundLocalError: isc referenced before assignment" :=
  ⟨by decide, by decide, by decide, by decide,
   (unknown_variant_rejected Unit Unit Unit Unit Unit unitEnv () 0 unitPhantom emptyInfo
     "Bogus" 0 25 "signal" (by decide) (by decide) (by decide) (by decide)).1⟩

lemma apply_instr_getm_irrel {σ : Type} (ops : SGOps σ) (g2 : σ → ℚ × ℚ × ℚ)
    (isc : σ) (i : Instr) :
    apply_instr { ops with get_m := g2 } isc i = apply_instr ops isc i := by
  cases i <;> rfl

/-- C10: the interpreter always returns one 3-component trace column per
instruction (so the trace length equals the instruction count) whether or
not trace capture is requested; without capture the trace is all zeros
and the spin state's magnetization reader is never consulted (the result
is invariant under replacing `get_m`). -/
theorem interpreter_trace (σ : Type) (ops : SGOps σ) (isc : σ) (instrs : List Instr)
    (store_m : Bool) :
    (apply_pulseq_commands ops isc instrs store_m).2.length = instrs.length
    ∧ (apply_pulseq_commands ops isc instrs false).2
        = List.replicate instrs.length (0, 0, 0)
    ∧ ∀ g2 : σ → ℚ × ℚ × ℚ,
      apply_pulseq_commands { ops with get_m := g2 } isc instrs false
        = apply_pulseq_commands ops isc instrs false := by
  refine ⟨?_, ?_, ?_⟩
  · induction instrs generalizing isc with
    | nil => rfl
    | cons i rest ih => simp [apply_pulseq_commands, ih]
  · induction instrs generalizing isc with
    | nil => rfl
    | cons i rest ih => simp [apply_pulseq_commands, List.replicate_succ, ih]
  · intro g2
    induction instrs generalizing isc with
    | nil => rfl
    | cons i rest ih => simp [apply_pulseq_commands, apply_instr_getm_irrel, ih]

end PulseqBloch
